import Mathlib

/-!
A formal model of the chunked tensor storage engine of this repository:
the chunk packer (`ChunkEngine.append_bytes` / `ChunkEngine.try_appending_to_last_chunk`
from `hub/core/chunk_engine.py`), the chunk-id encoder, the tensor metadata operations
(`hub/core/meta/tensor_meta.py`), the batch `extend` / single-sample `append` entry
points, the `numpy` read path, `get_chunk_names` and
`validate_num_samples_is_synchronized`, together with theorems about them.

Byte buffers are modelled as `List Nat` (sequences of byte values); all the machine
integers involved are nonnegative sizes and indices, modelled as `Nat` (no overflow
arithmetic occurs in the modelled code paths).  Python exceptions are modelled by
`Option`/`Except` results: an operation returns the state it has mutated so far
together with an optional error, because a raised exception leaves the in-place
mutations that already happened visible.
-/

/-- Configuration of a `ChunkEngine` instance together with the two external pure
functions the engine calls out to: `mmh3.hash_bytes` (murmurhash3, an external
library) and the compression codec (`encode(array) -> bytes`, out of scope per the
spec, treated as a pluggable function).  `max_chunk_size` is the constructor
argument of `ChunkEngine.__init__` (required to be `> 2` there). -/
structure Config where
  max_chunk_size : Nat
  mmh3 : List Nat → List Nat
  codec : String → List Nat → List Nat

/-- Source `ChunkEngine.__init__`: `self.min_chunk_size = self.max_chunk_size // 2`. -/
def Config.min_chunk_size (cfg : Config) : Nat :=
  cfg.max_chunk_size / 2

/-- Source `_min_chunk_ct_for_data_size`: `ceil(size / chunk_max_data_bytes)`, written
on naturals (`(size + M - 1) / M` equals the ceiling for `M > 0`). -/
def min_chunk_ct_for_data_size (chunk_max_data_bytes size : Nat) : Nat :=
  (size + chunk_max_data_bytes - 1) / chunk_max_data_bytes

/-- Modelled from the spec: `ChunkIdEncoder.name_from_id` is not under the provided
sources; per the spec a chunk name is the fixed-width lowercase hex of the 64-bit
chunk id. -/
def name_from_id (id : Nat) : String :=
  let ds := Nat.toDigits 16 id
  String.mk (List.replicate (16 - ds.length) '0' ++ ds)

/-- Modelled from the spec: the `Chunk` class is not under the provided sources.  Per
the spec a chunk carries `data` (the concatenation of encoded sample bytes in append
order), a shapes encoder and a byte-positions encoder; the two per-chunk run-length
encoders are modelled by their abstract content, the local-index-to-shape and
local-index-to-byte-range maps. -/
structure Chunk where
  data : List Nat
  shapes : List (List Nat)
  byte_positions : List (Nat × Nat)
deriving DecidableEq, Repr

def Chunk.empty : Chunk := ⟨[], [], []⟩

/-- Modelled from the spec: `num_data_bytes = len(data)`. -/
def Chunk.num_data_bytes (c : Chunk) : Nat := c.data.length

/-- Modelled from the spec: `is_under_min_space(min_cap) = num_data_bytes < min_cap`. -/
def Chunk.is_under_min_space (c : Chunk) (min_cap : Nat) : Bool :=
  c.num_data_bytes < min_cap

/-- Modelled from the spec: `append_sample(buffer, max_chunk_size, shape)` appends
`buffer` to `data`, pushes `shape` onto the shape encoder and pushes
`(prev_end, prev_end + len(buffer))` onto the byte-position encoder.  The
`max_chunk_size` argument is kept for signature fidelity; per the spec the caller is
responsible for the size pre-check. -/
def Chunk.append_sample (c : Chunk) (buffer : List Nat) (_max_chunk_size : Nat)
    (shape : List Nat) : Chunk :=
  { data := c.data ++ buffer
    shapes := c.shapes ++ [shape]
    byte_positions := c.byte_positions ++ [(c.data.length, c.data.length + buffer.length)] }

/-- Modelled from the spec: the `ChunkIdEncoder` class is not under the provided
sources.  Per the spec it stores rows `(chunk_id, last_global_sample_index)` sorted by
the last index, plus the currently open chunk id (`0` is reserved as "none"), set when
a fresh chunk id is generated. -/
structure ChunkIdEncoder where
  rows : List (Nat × Nat)
  open_chunk_id : Nat
deriving DecidableEq, Repr

/-- Modelled from the spec: `num_samples` is the final row's
`last_global_sample_index + 1`, or `0` if empty. -/
def ChunkIdEncoder.num_samples (e : ChunkIdEncoder) : Nat :=
  match e.rows.getLast? with
  | none => 0
  | some r => r.2 + 1

/-- Modelled from the spec: `num_chunks` is the number of rows. -/
def ChunkIdEncoder.num_chunks (e : ChunkIdEncoder) : Nat := e.rows.length

/-- Modelled from the spec: generating a new chunk id returns `1` if the encoder is
empty and `last_chunk_id + 1` otherwise, and records the new id as the currently open
chunk id. -/
def ChunkIdEncoder.generate_chunk_id (e : ChunkIdEncoder) : Nat × ChunkIdEncoder :=
  let new_id :=
    match e.rows.getLast? with
    | none => 1
    | some r => r.1 + 1
  (new_id, { e with open_chunk_id := new_id })

/-- Modelled from the spec: registering `n` samples extends the last row's
`last_global_sample_index` by `n` when that row's chunk id is the currently open
chunk id, and otherwise appends a new row for the open (freshly generated) chunk id
ending at `last_global_sample_index + n`. -/
def ChunkIdEncoder.register_samples (e : ChunkIdEncoder) (n : Nat) : ChunkIdEncoder :=
  match e.rows.getLast? with
  | some r =>
      if r.1 = e.open_chunk_id then
        { e with rows := e.rows.dropLast ++ [(r.1, r.2 + n)] }
      else
        { e with rows := e.rows ++ [(e.open_chunk_id, r.2 + n)] }
  | none => { e with rows := [(e.open_chunk_id, n - 1)] }

/-- Modelled from the spec: `__getitem__(global_index)` finds the smallest row whose
`last_global_sample_index` is at least the queried index (the source uses a binary
search over the sorted rows; the semantic content is this first-match lookup).
Returns the reserved id `0` when the index is beyond every row. -/
def ChunkIdEncoder.chunk_id_at (e : ChunkIdEncoder) (global_index : Nat) : Nat :=
  ((e.rows.find? fun r => decide (global_index ≤ r.2)).map Prod.fst).getD 0

/-- Helper walk for `ChunkIdEncoder.translate_index_relative_to_chunks`, carrying the
previous row's `last_global_sample_index`. -/
def translate_go (g : Nat) : List (Nat × Nat) → Option Nat → Nat
  | [], none => g
  | [], some p => g - (p + 1)
  | r :: rest, prev =>
      if g ≤ r.2 then
        match prev with
        | none => g
        | some p => g - (p + 1)
      else translate_go g rest (some r.2)

/-- Modelled from the spec: `translate_index_relative_to_chunks(global)` is the global
index minus the previous row's `last_global_sample_index + 1` (the global index itself
for the first row). -/
def ChunkIdEncoder.translate_index_relative_to_chunks (e : ChunkIdEncoder) (g : Nat) : Nat :=
  translate_go g e.rows none

/-- Errors raised by `TensorMeta` (`hub/util/exceptions` kinds, carried with the
arguments the source passes to them). -/
inductive MetaError
  | tensorMetaMismatch (expected : Option String) (actual : String)
  | tensorInvalidSampleShape (expectedLen actualLen : Nat)
deriving DecidableEq, Repr

/-- Tensor metadata, from `TensorMeta` in `hub/core/meta/tensor_meta.py` (declared
fields `htype, dtype, min_shape, max_shape, chunk_size, length`) together with the
`sample_compression` and `hash_samples` fields the chunk engine reads off it.
`dtype = none` models the state before a dtype has been recorded. -/
structure TensorMeta where
  htype : String
  dtype : Option String
  min_shape : List Nat
  max_shape : List Nat
  chunk_size : Nat
  length : Nat
  sample_compression : Option String
  hash_samples : Bool
deriving DecidableEq, Repr

/-- Source `TensorMeta.check_batch_is_compatible` (the batch is an array with a
leading batch axis, modelled by its shape list and its dtype name): first the dtype
check, unconditionally; then, only after a sample exists (`length > 0`), the
per-sample rank check against `min_shape` over `array.shape[1:]`. -/
def TensorMeta.check_batch_is_compatible (m : TensorMeta) (batch_shape : List Nat)
    (batch_dtype_name : String) : Option MetaError :=
  if m.dtype ≠ some batch_dtype_name then
    some (.tensorMetaMismatch m.dtype batch_dtype_name)
  else
    let sample_shape := batch_shape.drop 1
    if 0 < m.length then
      if m.min_shape.length ≠ sample_shape.length then
        some (.tensorInvalidSampleShape m.min_shape.length sample_shape.length)
      else none
    else none

/-- Source `TensorMeta._update_shape_interval`: for each position `i` of `shape`,
`min_shape[i] := min(dim, min_shape[i])` and `max_shape[i] := max(dim, max_shape[i])`.
The result is `none` when `shape` is longer than the recorded lists, where the Python
subscript raises `IndexError`. -/
def update_shape_interval : List Nat → List Nat → List Nat → Option (List Nat × List Nat)
  | [], mins, maxs => some (mins, maxs)
  | dim :: dims, mn :: mins, mx :: maxs =>
      (update_shape_interval dims mins maxs).map fun p =>
        (min dim mn :: p.1, max dim mx :: p.2)
  | _ :: _, _, _ => none

/-- Source `TensorMeta.update_with_sample(array, name)`: on the first call
(`length <= 0`) fixes `dtype` to the array's dtype and installs `min_shape` and
`max_shape` equal to the array's shape; on subsequent calls updates the per-dimension
interval. -/
def TensorMeta.update_with_sample (m : TensorMeta) (array_shape : List Nat)
    (array_dtype : String) : Option TensorMeta :=
  if m.length ≤ 0 then
    some { m with dtype := some array_dtype
                  min_shape := array_shape
                  max_shape := array_shape }
  else
    (update_shape_interval array_shape m.min_shape m.max_shape).map fun p =>
      { m with min_shape := p.1, max_shape := p.2 }

/-- Pointwise minimum of the recorded minima with a new shape, leaving dimensions the
new shape does not reach untouched (helper for the spec-modelled `TensorMeta.update`,
which is only invoked after the batch was validated to have a matching rank). -/
def interval_min : List Nat → List Nat → List Nat
  | [], _ => []
  | mns, [] => mns
  | mn :: mns, d :: ds => min mn d :: interval_min mns ds

/-- Pointwise maximum, companion of `interval_min`. -/
def interval_max : List Nat → List Nat → List Nat
  | [], _ => []
  | mxs, [] => mxs
  | mx :: mxs, d :: ds => max mx d :: interval_max mxs ds

/-- Modelled from the spec: `TensorMeta.update(shape, dtype, num_samples)` is called
by `ChunkEngine._append_bytes` but is not under the provided sources.  Per the spec
the append path updates the tensor-meta length by the number of samples and refreshes
the `min_shape`/`max_shape` interval with the sample's shape, installing the dtype and
the interval on the first sample. -/
def TensorMeta.update (m : TensorMeta) (shape : List Nat) (dtype_name : String)
    (num_samples : Nat) : TensorMeta :=
  if m.length = 0 then
    { m with dtype := some dtype_name
             min_shape := shape
             max_shape := shape
             length := num_samples }
  else
    { m with min_shape := interval_min m.min_shape shape
             max_shape := interval_max m.max_shape shape
             length := m.length + num_samples }

/-- A freshly created tensor meta (defaults of `_required_meta_from_htype`: empty
shape interval, `length = 0`, no dtype recorded), with the compression and hashing
settings chosen at tensor creation. -/
def TensorMeta.fresh (sample_compression : Option String) (hash_samples : Bool) :
    TensorMeta :=
  { htype := "generic"
    dtype := none
    min_shape := []
    max_shape := []
    chunk_size := 0
    length := 0
    sample_compression := sample_compression
    hash_samples := hash_samples }

/-- Modelled from the spec: the `Sample` wrapper (`hub/core/sample.py` is not under
the provided sources) carries an array's shape, its dtype name and its raw
(uncompressed) bytes. -/
structure Sample where
  shape : List Nat
  dtype_name : String
  array_bytes : List Nat
deriving DecidableEq, Repr

/-- Modelled from the spec: `Sample.uncompressed_bytes()` returns the raw array
bytes. -/
def Sample.uncompressed_bytes (x : Sample) : List Nat := x.array_bytes

/-- Modelled from the spec: `Sample.compressed_bytes(compression)` returns the raw
bytes when `compression` is `None` and the codec's output otherwise. -/
def Sample.compressed_bytes (x : Sample) (cfg : Config) :
    Option String → List Nat
  | none => x.array_bytes
  | some c => cfg.codec c x.array_bytes

/-- Error kinds raised by the chunk engine paths modelled here.  `sampleTooLarge`
is the `NotImplementedError` of `_check_sample_size` (the spec's `SampleTooLarge`
kind); it records the offending byte count and whether the message carried the
"enable sample_compression" hint.  `attributeError` is Python's `AttributeError`,
raised by the compressed ndarray branch of `extend` when hashing is enabled: it
calls `sample.uncompressed_bytes()` on a numpy row, which has no such attribute. -/
inductive EngineError
  | sampleTooLarge (num_bytes : Nat) (uncompressed_hint : Bool)
  | dynamicTensorNumpy
  | corruptedMeta
  | attributeError
deriving DecidableEq, Repr

/-- The mutable state a `ChunkEngine` reaches through the write-back cache: the
chunks of the tensor in creation (= chunk id) order, the chunk-id encoder, the tensor
meta and the hashlist.  The cache bookkeeping itself (`_synchronize_cache`,
`maybe_flush`, dirty bits) moves no sample data and is not modelled. -/
structure ChunkEngine where
  chunks : List Chunk
  enc : ChunkIdEncoder
  meta : TensorMeta
  hashlist : List (List Nat)
deriving DecidableEq, Repr

/-- A fresh tensor: no chunks, a blank chunk-id encoder, fresh meta, empty
hashlist. -/
def ChunkEngine.fresh (sample_compression : Option String) (hash_samples : Bool) :
    ChunkEngine :=
  { chunks := []
    enc := { rows := [], open_chunk_id := 0 }
    meta := TensorMeta.fresh sample_compression hash_samples
    hashlist := [] }

/-- Source `ChunkEngine.last_chunk`: `None` when `num_chunks == 0`, else the chunk
the last chunk-id row names (the last created chunk). -/
def ChunkEngine.last_chunk (s : ChunkEngine) : Option Chunk :=
  if s.enc.num_chunks = 0 then none else s.chunks.getLast?

/-- Source `ChunkEngine._check_sample_size`: rejects `num_bytes > min_chunk_size`;
the error message additionally carries the enable-compression hint exactly when
`sample_compression` is `None`. -/
def check_sample_size (cfg : Config) (sample_compression : Option String)
    (num_bytes : Nat) : Option EngineError :=
  if cfg.min_chunk_size < num_bytes then
    some (.sampleTooLarge num_bytes sample_compression.isNone)
  else none

/-- The encoded size of a raw row under the tensor's compression setting: the raw
byte count when uncompressed, the codec output's length otherwise. -/
def encoded_size (cfg : Config) (compression : Option String) (row : List Nat) : Nat :=
  match compression with
  | none => row.length
  | some c => (cfg.codec c row).length

/-- Source `ChunkEngine._try_appending_to_last_chunk(buffer, shape)`: no last chunk
means not consumed; a last chunk at or above `min_chunk_size` means not consumed;
otherwise, with `L` the last chunk's data bytes, `M` the max chunk size and `B` the
buffer length, the first `min(B, M - L)` bytes are appended to the last chunk and the
buffer is reported consumed exactly when `ceil((B + L) / M) = ceil(B / M)`. -/
def ChunkEngine.try_appending_to_last_chunk (s : ChunkEngine) (cfg : Config)
    (buffer : List Nat) (shape : List Nat) : Bool × ChunkEngine :=
  match s.last_chunk with
  | none => (false, s)
  | some lc =>
      if lc.is_under_min_space cfg.min_chunk_size then
        if min_chunk_ct_for_data_size cfg.max_chunk_size (buffer.length + lc.num_data_bytes) =
            min_chunk_ct_for_data_size cfg.max_chunk_size buffer.length then
          (true,
            { s with chunks := s.chunks.dropLast ++
                [lc.append_sample
                  (buffer.take (min buffer.length (cfg.max_chunk_size - lc.num_data_bytes)))
                  cfg.max_chunk_size shape] })
        else (false, s)
      else (false, s)

/-- Source `ChunkEngine._append_to_new_chunk` / `_create_new_chunk`: generate a fresh
chunk id, create an empty chunk, append the whole buffer to it. -/
def ChunkEngine.append_to_new_chunk (s : ChunkEngine) (cfg : Config)
    (buffer : List Nat) (shape : List Nat) : ChunkEngine :=
  let g := s.enc.generate_chunk_id
  { s with enc := g.2
           chunks := s.chunks ++ [Chunk.empty.append_sample buffer cfg.max_chunk_size shape] }

/-- Source `ChunkEngine._append_bytes(buffer, shape, dtype)`: update the tensor meta
first (`tensor_meta.adapt` is a dtype normalization that is the identity on matching
buffers and is not modelled separately), then try the last chunk, fall back to a new
chunk, then register one sample with the chunk-id encoder. -/
def ChunkEngine.append_bytes (s : ChunkEngine) (cfg : Config) (buffer : List Nat)
    (shape : List Nat) (dtype_name : String) : ChunkEngine :=
  let s0 : ChunkEngine := { s with meta := s.meta.update shape dtype_name 1 }
  let r := s0.try_appending_to_last_chunk cfg buffer shape
  let s1 := if r.1 then r.2 else r.2.append_to_new_chunk cfg buffer shape
  { s1 with enc := s1.enc.register_samples 1 }

/-- Source `ChunkEngine.append(sample)` on a `Sample` argument (all other argument
kinds are wrapped into a `Sample` first): take the compressed bytes under the
tensor's compression, check the size, hash the uncompressed bytes if enabled, then
feed the bytes to `_append_bytes`.  A raised size error leaves the state untouched
(the check precedes every mutation in this path). -/
def ChunkEngine.append (s : ChunkEngine) (cfg : Config) (x : Sample) :
    ChunkEngine × Option EngineError :=
  let compression := s.meta.sample_compression
  let data := x.compressed_bytes cfg compression
  match check_sample_size cfg compression data.length with
  | some e => (s, some e)
  | none =>
      let s1 :=
        if s.meta.hash_samples then
          { s with hashlist := s.hashlist ++ [cfg.mmh3 x.uncompressed_bytes] }
        else s
      (s1.append_bytes cfg data x.shape x.dtype_name, none)

/-- Source `ChunkEngine.extend`, uncompressed ndarray branch, first loop: per row,
append the murmurhash3 digest of the row's bytes to the hashlist (when enabled) and
then check the row's size; stops at the first failing check with the mutated
hashlist. -/
def ChunkEngine.uncompressed_precheck (cfg : Config) (hash_samples : Bool) :
    ChunkEngine → List (List Nat) → ChunkEngine × Option EngineError
  | s, [] => (s, none)
  | s, row :: rest =>
      let s1 :=
        if hash_samples then { s with hashlist := s.hashlist ++ [cfg.mmh3 row] } else s
      match check_sample_size cfg s1.meta.sample_compression row.length with
      | some e => (s1, some e)
      | none => ChunkEngine.uncompressed_precheck cfg hash_samples s1 rest

/-- Source `ChunkEngine.extend`, compressed ndarray branch, first loop: per row, wrap
it as a `Sample` (a local list, no engine-state effect); when hashing is enabled the
source then calls `sample.uncompressed_bytes()` on the numpy row itself, which has no
such attribute, so Python raises `AttributeError` on the first row, before any size
check and before any hashlist append; with hashing disabled the row's compressed size
is checked. -/
def ChunkEngine.compressed_precheck (cfg : Config) (hash_samples : Bool)
    (compression : String) :
    ChunkEngine → List (List Nat) → ChunkEngine × Option EngineError
  | s, [] => (s, none)
  | s, row :: rest =>
      if hash_samples then (s, some .attributeError)
      else
        match check_sample_size cfg s.meta.sample_compression
            (cfg.codec compression row).length with
        | some e => (s, some e)
        | none => ChunkEngine.compressed_precheck cfg hash_samples compression s rest

/-- Source `ChunkEngine.extend`, uncompressed ndarray branch, second loop: feed each
collected buffer to `_append_bytes` with the batch's row shape and dtype (in the
source these are read off the loop variable after the first loop; every row of a
dense numpy batch shares them). -/
def ChunkEngine.append_buffers (cfg : Config) (shape : List Nat) (dtype_name : String) :
    ChunkEngine → List (List Nat) → ChunkEngine
  | s, [] => s
  | s, b :: rest =>
      ChunkEngine.append_buffers cfg shape dtype_name (s.append_bytes cfg b shape dtype_name) rest

/-- Per-element `self.append(sample)` loop, stopping at the first raised error with
the state mutated so far (used by the compressed ndarray branch's second loop and by
the non-uniform sequence fallback of `extend`). -/
def ChunkEngine.append_all (cfg : Config) :
    ChunkEngine → List Sample → ChunkEngine × Option EngineError
  | s, [] => (s, none)
  | s, x :: rest =>
      match s.append cfg x with
      | (s1, some e) => (s1, some e)
      | (s1, none) => ChunkEngine.append_all cfg s1 rest

/-- Source `ChunkEngine.extend` on a dense numpy batch, modelled by the list of
per-row byte buffers plus the common row shape and dtype name: both compression
branches run their size-checking first loop over the whole batch before any append. -/
def ChunkEngine.extend_ndarray (s : ChunkEngine) (cfg : Config)
    (rows : List (List Nat)) (row_shape : List Nat) (dtype_name : String) :
    ChunkEngine × Option EngineError :=
  let hash_samples := s.meta.hash_samples
  match s.meta.sample_compression with
  | none =>
      match ChunkEngine.uncompressed_precheck cfg hash_samples s rows with
      | (s1, some e) => (s1, some e)
      | (s1, none) => (ChunkEngine.append_buffers cfg row_shape dtype_name s1 rows, none)
  | some compression =>
      match ChunkEngine.compressed_precheck cfg hash_samples compression s rows with
      | (s1, some e) => (s1, some e)
      | (s1, none) =>
          ChunkEngine.append_all cfg s1 (rows.map fun r => ⟨row_shape, dtype_name, r⟩)

/-- The Python dynamic type of a scalar sample (`SampleValue` admits `int`, `float`
and `bool` scalars); `set(map(type, samples))` distinguishes them. -/
inductive PyScalarType
  | int
  | float
  | bool
deriving DecidableEq, Repr

/-- An element of a heterogeneous Python sequence passed to `extend`: a numpy array,
a `Sample` object, or a scalar (modelled with its Python type, the dtype name
`np.array` would assign, and its encoded bytes). -/
inductive SeqElem
  | npArr (shape : List Nat) (dtype_name : String) (bytes : List Nat)
  | sampleObj (x : Sample)
  | scalar (py_type : PyScalarType) (dtype_name : String) (bytes : List Nat)
deriving DecidableEq, Repr

/-- The Python dynamic type of a sequence element, as compared by
`set(map(type, samples))`; the three scalar types are distinct dynamic types. -/
def SeqElem.type_tag : SeqElem → Nat
  | npArr .. => 0
  | sampleObj .. => 1
  | scalar .int _ _ => 2
  | scalar .float _ _ => 3
  | scalar .bool _ _ => 4

def SeqElem.is_np_arr : SeqElem → Bool
  | npArr .. => true
  | _ => false

def SeqElem.is_sample_obj : SeqElem → Bool
  | sampleObj .. => true
  | _ => false

def SeqElem.elem_shape : SeqElem → List Nat
  | npArr sh _ _ => sh
  | sampleObj x => x.shape
  | scalar _ _ _ => []

def SeqElem.elem_dtype : SeqElem → String
  | npArr _ dt _ => dt
  | sampleObj x => x.dtype_name
  | scalar _ dt _ => dt

def SeqElem.elem_bytes : SeqElem → List Nat
  | npArr _ _ b => b
  | sampleObj x => x.array_bytes
  | scalar _ _ b => b

/-- `Sample(array=np.array(sample))` wrapping done by `ChunkEngine.append` for
non-`Sample` arguments (a scalar wraps to a rank-0 array). -/
def SeqElem.to_sample : SeqElem → Sample
  | npArr sh dt b => ⟨sh, dt, b⟩
  | sampleObj x => x
  | scalar _ dt b => ⟨[], dt, b⟩

/-- Source `is_uniform_sequence(samples)`: false on mixed dynamic types (mixed-type
scalar sequences are non-uniform); numpy arrays are uniform only when all shapes
agree; `Sample` objects are never vectorized; same-typed scalars are uniform. -/
def is_uniform_sequence (samples : List SeqElem) : Bool :=
  if (samples.map SeqElem.type_tag).dedup.length ≠ 1 then false
  else if samples.any SeqElem.is_np_arr then
    decide ((samples.map SeqElem.elem_shape).dedup.length = 1)
  else if samples.any SeqElem.is_sample_obj then false
  else true

/-- The argument of `ChunkEngine.extend`: a dense numpy batch (list of per-row byte
buffers with the common row shape and dtype name), or a Python sequence. -/
inductive ExtendInput
  | ndarray (rows : List (List Nat)) (row_shape : List Nat) (dtype_name : String)
  | sequence (elems : List SeqElem)

/-- Source `ChunkEngine.extend(samples)`: dense numpy batches go through the
two-loop branch; uniform sequences are stacked (`np.array(samples)`) and re-enter the
dense branch; non-uniform sequences fall back to an element-by-element
`self.append(sample)` loop. -/
def ChunkEngine.extend (s : ChunkEngine) (cfg : Config) :
    ExtendInput → ChunkEngine × Option EngineError
  | .ndarray rows row_shape dtype_name => s.extend_ndarray cfg rows row_shape dtype_name
  | .sequence elems =>
      if is_uniform_sequence elems then
        s.extend_ndarray cfg (elems.map SeqElem.elem_bytes)
          ((elems.head?.map SeqElem.elem_shape).getD [])
          ((elems.head?.map SeqElem.elem_dtype).getD "")
      else ChunkEngine.append_all cfg s (elems.map SeqElem.to_sample)

/-- Models the cache lookup `get_cachable(get_chunk_key(key, name), Chunk)` of the
read path: chunk ids are generated sequentially from `1` and chunks are created in id
order, so the chunk named by id `k` is the `k-1`-th created chunk. -/
def ChunkEngine.chunk_for_id (s : ChunkEngine) (chunk_id : Nat) : Chunk :=
  s.chunks.getD (chunk_id - 1) Chunk.empty

/-- `data[sb:eb]`, a Python slice of a byte buffer. -/
def list_slice (l : List Nat) (sb eb : Nat) : List Nat := (l.take eb).drop sb

/-- Source `ChunkEngine.read_sample_from_chunk(global_sample_index, chunk)`: translate
to the chunk-local index, look up the shape and the byte range, slice the chunk's
data.  The decoded array (`np.frombuffer(...).reshape(shape)` when uncompressed,
`decompress_array(buffer, shape)` otherwise) is modelled as the pair of its shape and
its payload bytes. -/
def ChunkEngine.read_sample_from_chunk (s : ChunkEngine) (global_sample_index : Nat)
    (c : Chunk) : List Nat × List Nat :=
  let local_index := s.enc.translate_index_relative_to_chunks global_sample_index
  let shape := c.shapes.getD local_index []
  let p := c.byte_positions.getD local_index (0, 0)
  (shape, list_slice c.data p.1 p.2)

/-- The per-index body of `ChunkEngine.numpy`'s loop: chunk id, chunk lookup by its
name, read the sample. -/
def ChunkEngine.sample_at (s : ChunkEngine) (i : Nat) : List Nat × List Nat :=
  s.read_sample_from_chunk i (s.chunk_for_id (s.enc.chunk_id_at i))

/-- The loop of `ChunkEngine.numpy`, carrying `last_shape`: with `aslist=False` a
sample whose shape differs from the previous one raises `DynamicTensorNumpyError`. -/
def ChunkEngine.numpy_go (s : ChunkEngine) (aslist : Bool) :
    List Nat → Option (List Nat) → Except EngineError (List (List Nat × List Nat))
  | [], _ => .ok []
  | i :: rest, last_shape =>
      let sample := s.sample_at i
      if aslist = false ∧ last_shape.isSome = true ∧ some sample.1 ≠ last_shape then
        .error .dynamicTensorNumpy
      else (s.numpy_go aslist rest (some sample.1)).map fun l => sample :: l

/-- Source `ChunkEngine.numpy(index, aslist)`.  The `Index` argument is modelled by
the explicit list of global sample indices it denotes
(`index.values[0].indices(length)`); the returned value — a list of per-sample arrays
for `aslist=True`, their dense stack otherwise — is modelled as the list of collected
samples (`_format_samples`' slicing/squeeze post-processing moves no sample). -/
def ChunkEngine.numpy (s : ChunkEngine) (index : List Nat) (aslist : Bool) :
    Except EngineError (List (List Nat × List Nat)) :=
  s.numpy_go aslist index none

/-- The `while` loop of `ChunkEngine.get_chunk_names`, with fuel equal to the number
of sample indices left below `last_index` (the loop advances `sample_index` by one per
iteration, so this is exactly the iteration bound; the loop condition is still checked
each round). -/
def get_chunk_names_go (e : ChunkIdEncoder) (last_index target_chunk_count : Nat) :
    Nat → Nat → Finset String → Finset String
  | 0, _, acc => acc
  | fuel + 1, sample_index, acc =>
      if acc.card < target_chunk_count ∧ sample_index < last_index then
        get_chunk_names_go e last_index target_chunk_count fuel (sample_index + 1)
          (insert (name_from_id (e.chunk_id_at sample_index)) acc)
      else acc

/-- Source `ChunkEngine.get_chunk_names(sample_index, last_index, target_chunk_count)`:
walk sample indices while fewer than `target_chunk_count` unique names have been
collected and the index is below `last_index`, adding each visited sample's chunk
name. -/
def get_chunk_names (e : ChunkIdEncoder) (sample_index last_index target_chunk_count : Nat) :
    Finset String :=
  get_chunk_names_go e last_index target_chunk_count (last_index - sample_index)
    sample_index ∅

/-- Source `ChunkEngine.validate_num_samples_is_synchronized`: raises
`CorruptedMetaError` exactly when the tensor meta length and the chunk-id encoder
disagree on the number of samples. -/
def ChunkEngine.validate_num_samples_is_synchronized (s : ChunkEngine) :
    Option EngineError :=
  if s.meta.length ≠ s.enc.num_samples then some .corruptedMeta else none

/-- A completed user-level write operation on the engine. -/
inductive EngineOp
  | app (x : Sample)
  | ext (b : ExtendInput)

/-- Run a sequence of user-level operations, keeping whatever state each one reached
(a raised error keeps the mutations made before it, as in Python). -/
def run_ops (cfg : Config) : ChunkEngine → List EngineOp → ChunkEngine
  | s, [] => s
  | s, .app x :: rest => run_ops cfg (s.append cfg x).1 rest
  | s, .ext b :: rest => run_ops cfg (s.extend cfg b).1 rest

/-- A concrete configuration for witnesses: `max_chunk_size = 10` (so
`min_chunk_size = 5`), with the external digest and codec instantiated by simple
concrete functions. -/
def test_cfg : Config :=
  { max_chunk_size := 10
    mmh3 := fun b => b
    codec := fun _ b => b }

/-- A sample whose encoded size is exactly `test_cfg.max_chunk_size`. -/
def sample_max : Sample := ⟨[10], "uint8", List.replicate 10 0⟩

/-- A tensor meta after one recorded `float32` sample of shape `(10, 10)`. -/
def meta_demo : TensorMeta :=
  { htype := "generic"
    dtype := some "float32"
    min_shape := [10, 10]
    max_shape := [10, 10]
    chunk_size := 0
    length := 1
    sample_compression := none
    hash_samples := false }

/-- A tensor meta with a nondegenerate shape interval, for the `update_with_sample`
witness. -/
def meta_interval : TensorMeta :=
  { htype := "generic"
    dtype := some "float32"
    min_shape := [2, 3]
    max_shape := [4, 3]
    chunk_size := 0
    length := 1
    sample_compression := none
    hash_samples := false }

/-- A chunk-id encoder with chunk 1 holding sample 0 and chunk 2 holding samples 1
and 2. -/
def enc_demo : ChunkIdEncoder := { rows := [(1, 0), (2, 2)], open_chunk_id := 2 }

/-- An engine state with one chunk holding two samples of shape `[2]` with payloads
`[1, 2]` and `[3, 4]`. -/
def engine_demo : ChunkEngine :=
  { chunks := [⟨[1, 2, 3, 4], [[2], [2]], [(0, 2), (2, 4)]⟩]
    enc := { rows := [(1, 1)], open_chunk_id := 1 }
    meta := meta_demo
    hashlist := [] }

/-! ### Basic preservation lemmas -/

theorem last_chunk_set_meta (s : ChunkEngine) (m : TensorMeta) :
    ({ s with meta := m } : ChunkEngine).last_chunk = s.last_chunk := rfl

/-- The packer decision of `_try_appending_to_last_chunk`, written out as a case
split on the source's conditions. -/
theorem try_append_spec (cfg : Config) (s : ChunkEngine) (buffer shape : List Nat) :
    s.try_appending_to_last_chunk cfg buffer shape =
      match s.last_chunk with
      | none => (false, s)
      | some lc =>
          if lc.num_data_bytes < cfg.min_chunk_size ∧
              min_chunk_ct_for_data_size cfg.max_chunk_size
                  (buffer.length + lc.num_data_bytes) =
                min_chunk_ct_for_data_size cfg.max_chunk_size buffer.length then
            (true,
              { s with chunks := s.chunks.dropLast ++
                  [lc.append_sample
                    (buffer.take (min buffer.length (cfg.max_chunk_size - lc.num_data_bytes)))
                    cfg.max_chunk_size shape] })
          else (false, s) := by
  unfold ChunkEngine.try_appending_to_last_chunk
  cases s.last_chunk with
  | none => rfl
  | some lc =>
      by_cases h1 : lc.num_data_bytes < cfg.min_chunk_size
      · by_cases h2 : min_chunk_ct_for_data_size cfg.max_chunk_size
            (buffer.length + lc.num_data_bytes) =
            min_chunk_ct_for_data_size cfg.max_chunk_size buffer.length
        · simp [Chunk.is_under_min_space, h1, h2]
        · simp [Chunk.is_under_min_space, h1, h2]
      · simp [Chunk.is_under_min_space, h1]

theorem try_append_meta (cfg : Config) (s : ChunkEngine) (buffer shape : List Nat) :
    (s.try_appending_to_last_chunk cfg buffer shape).2.meta = s.meta := by
  rw [try_append_spec]
  cases s.last_chunk with
  | none => rfl
  | some lc => dsimp only; split <;> rfl

theorem try_append_enc (cfg : Config) (s : ChunkEngine) (buffer shape : List Nat) :
    (s.try_appending_to_last_chunk cfg buffer shape).2.enc = s.enc := by
  rw [try_append_spec]
  cases s.last_chunk with
  | none => rfl
  | some lc => dsimp only; split <;> rfl

theorem try_append_hashlist (cfg : Config) (s : ChunkEngine) (buffer shape : List Nat) :
    (s.try_appending_to_last_chunk cfg buffer shape).2.hashlist = s.hashlist := by
  rw [try_append_spec]
  cases s.last_chunk with
  | none => rfl
  | some lc => dsimp only; split <;> rfl

theorem update_length (m : TensorMeta) (shape : List Nat) (dtn : String) :
    (m.update shape dtn 1).length = m.length + 1 := by
  unfold TensorMeta.update
  by_cases h : m.length = 0 <;> simp [h]

theorem update_sample_compression (m : TensorMeta) (shape : List Nat) (dtn : String)
    (n : Nat) : (m.update shape dtn n).sample_compression = m.sample_compression := by
  unfold TensorMeta.update
  by_cases h : m.length = 0 <;> simp [h]

theorem update_hash_samples (m : TensorMeta) (shape : List Nat) (dtn : String)
    (n : Nat) : (m.update shape dtn n).hash_samples = m.hash_samples := by
  unfold TensorMeta.update
  by_cases h : m.length = 0 <;> simp [h]

theorem register_samples_num_samples (e : ChunkIdEncoder) :
    (e.register_samples 1).num_samples = e.num_samples + 1 := by
  unfold ChunkIdEncoder.register_samples ChunkIdEncoder.num_samples
  cases h : e.rows.getLast? with
  | none => simp
  | some r =>
      by_cases hid : r.1 = e.open_chunk_id <;> simp [hid, h, List.getLast?_concat]

theorem generate_num_samples (e : ChunkIdEncoder) :
    e.generate_chunk_id.2.num_samples = e.num_samples := rfl

theorem append_bytes_meta_length (cfg : Config) (s : ChunkEngine)
    (buffer shape : List Nat) (dtn : String) :
    (s.append_bytes cfg buffer shape dtn).meta.length = s.meta.length + 1 := by
  unfold ChunkEngine.append_bytes
  dsimp only
  split
  · rw [try_append_meta]
    exact update_length _ _ _
  · show (_ : ChunkEngine).meta.length = _
    rw [show ∀ t : ChunkEngine, (t.append_to_new_chunk cfg buffer shape).meta = t.meta
          from fun t => rfl]
    rw [try_append_meta]
    exact update_length _ _ _

theorem append_bytes_num_samples (cfg : Config) (s : ChunkEngine)
    (buffer shape : List Nat) (dtn : String) :
    (s.append_bytes cfg buffer shape dtn).enc.num_samples = s.enc.num_samples + 1 := by
  unfold ChunkEngine.append_bytes
  dsimp only
  split
  · rw [register_samples_num_samples, try_append_enc]
  · show ((_ : ChunkEngine).enc.register_samples 1).num_samples = _
    rw [register_samples_num_samples]
    rw [show ∀ t : ChunkEngine, (t.append_to_new_chunk cfg buffer shape).enc =
          t.enc.generate_chunk_id.2 from fun t => rfl]
    rw [generate_num_samples, try_append_enc]

/-! ### C1 -/

/-- Claim C1: in a single-sample append, the buffer is placed into the last chunk
exactly when a last chunk exists, its data byte count `L` is under `min_chunk_size`
and `ceil((B + L) / M) = ceil(B / M)`; in that case the first `min(B, M - L)` bytes of
the buffer are appended to it and the buffer is reported fully consumed, while in
every other case a new chunk is created and receives the whole buffer. -/
theorem c1_packer_decision (cfg : Config) (s : ChunkEngine) (buffer shape : List Nat)
    (dtype_name : String) :
    match s.last_chunk with
    | none =>
        s.try_appending_to_last_chunk cfg buffer shape = (false, s) ∧
        (s.append_bytes cfg buffer shape dtype_name).chunks =
          s.chunks ++ [Chunk.empty.append_sample buffer cfg.max_chunk_size shape]
    | some lc =>
        if lc.num_data_bytes < cfg.min_chunk_size ∧
            min_chunk_ct_for_data_size cfg.max_chunk_size
                (buffer.length + lc.num_data_bytes) =
              min_chunk_ct_for_data_size cfg.max_chunk_size buffer.length then
          (s.try_appending_to_last_chunk cfg buffer shape).1 = true ∧
          (s.append_bytes cfg buffer shape dtype_name).chunks =
            s.chunks.dropLast ++
              [lc.append_sample
                (buffer.take (min buffer.length (cfg.max_chunk_size - lc.num_data_bytes)))
                cfg.max_chunk_size shape]
        else
          (s.try_appending_to_last_chunk cfg buffer shape).1 = false ∧
          (s.append_bytes cfg buffer shape dtype_name).chunks =
            s.chunks ++ [Chunk.empty.append_sample buffer cfg.max_chunk_size shape] := by
  have hs0 : ∀ m : TensorMeta, ({ s with meta := m } : ChunkEngine).last_chunk =
      s.last_chunk := fun _ => rfl
  cases h : s.last_chunk with
  | none =>
      refine ⟨by rw [try_append_spec, h], ?_⟩
      unfold ChunkEngine.append_bytes
      dsimp only
      rw [try_append_spec, hs0, h]
      rfl
  | some lc =>
      by_cases hc : lc.num_data_bytes < cfg.min_chunk_size ∧
          min_chunk_ct_for_data_size cfg.max_chunk_size
              (buffer.length + lc.num_data_bytes) =
            min_chunk_ct_for_data_size cfg.max_chunk_size buffer.length
      · simp only [hc, if_true]
        refine ⟨by rw [try_append_spec, h]; simp [hc], ?_⟩
        unfold ChunkEngine.append_bytes
        dsimp only
        rw [try_append_spec, hs0, h]
        simp [hc]
      · simp only [hc, if_false]
        refine ⟨by rw [try_append_spec, h]; simp [hc], ?_⟩
        unfold ChunkEngine.append_bytes
        dsimp only
        rw [try_append_spec, hs0, h]
        simp [hc]
        rfl

/-! ### Synchronization invariant machinery (C2) -/

theorem append_sync (cfg : Config) (s : ChunkEngine) (x : Sample)
    (h : s.meta.length = s.enc.num_samples) :
    (s.append cfg x).1.meta.length = (s.append cfg x).1.enc.num_samples := by
  simp only [ChunkEngine.append]
  cases hch : check_sample_size cfg s.meta.sample_compression
      (x.compressed_bytes cfg s.meta.sample_compression).length with
  | some e => simpa using h
  | none =>
      simp only []
      rw [append_bytes_meta_length, append_bytes_num_samples]
      by_cases hh : s.meta.hash_samples <;> simp [hh, h]

theorem upre_preserves (cfg : Config) (hs : Bool) :
    ∀ (rows : List (List Nat)) (s : ChunkEngine),
      (ChunkEngine.uncompressed_precheck cfg hs s rows).1.meta = s.meta ∧
      (ChunkEngine.uncompressed_precheck cfg hs s rows).1.enc = s.enc ∧
      (ChunkEngine.uncompressed_precheck cfg hs s rows).1.chunks = s.chunks := by
  intro rows
  induction rows with
  | nil => intro s; exact ⟨rfl, rfl, rfl⟩
  | cons row rest ih =>
      intro s
      simp only [ChunkEngine.uncompressed_precheck]
      set s1 : ChunkEngine :=
        if hs = true then { s with hashlist := s.hashlist ++ [cfg.mmh3 row] } else s
        with hdef
      have hmeta : s1.meta = s.meta := by rw [hdef]; split <;> rfl
      have henc : s1.enc = s.enc := by rw [hdef]; split <;> rfl
      have hchunks : s1.chunks = s.chunks := by rw [hdef]; split <;> rfl
      cases hch : check_sample_size cfg s1.meta.sample_compression row.length with
      | some e => simp [hch, hmeta, henc, hchunks]
      | none =>
          simp only [hch]
          exact ⟨(ih s1).1.trans hmeta, (ih s1).2.1.trans henc, (ih s1).2.2.trans hchunks⟩

theorem cpre_preserves (cfg : Config) (hs : Bool) (compression : String) :
    ∀ (rows : List (List Nat)) (s : ChunkEngine),
      (ChunkEngine.compressed_precheck cfg hs compression s rows).1.meta = s.meta ∧
      (ChunkEngine.compressed_precheck cfg hs compression s rows).1.enc = s.enc ∧
      (ChunkEngine.compressed_precheck cfg hs compression s rows).1.chunks = s.chunks := by
  intro rows
  induction rows with
  | nil => intro s; exact ⟨rfl, rfl, rfl⟩
  | cons row rest ih =>
      intro s
      simp only [ChunkEngine.compressed_precheck]
      by_cases hh : hs = true
      · rw [if_pos hh]
        exact ⟨rfl, rfl, rfl⟩
      · rw [if_neg hh]
        cases hch : check_sample_size cfg s.meta.sample_compression
            (cfg.codec compression row).length with
        | some e => simp [hch]
        | none => simpa [hch] using ih s

theorem append_buffers_sync (cfg : Config) (shape : List Nat) (dtn : String) :
    ∀ (rows : List (List Nat)) (s : ChunkEngine),
      s.meta.length = s.enc.num_samples →
      (ChunkEngine.append_buffers cfg shape dtn s rows).meta.length =
        (ChunkEngine.append_buffers cfg shape dtn s rows).enc.num_samples := by
  intro rows
  induction rows with
  | nil => intro s h; exact h
  | cons b rest ih =>
      intro s h
      simp only [ChunkEngine.append_buffers]
      exact ih _ (by rw [append_bytes_meta_length, append_bytes_num_samples, h])

theorem append_all_sync (cfg : Config) :
    ∀ (xs : List Sample) (s : ChunkEngine),
      s.meta.length = s.enc.num_samples →
      (ChunkEngine.append_all cfg s xs).1.meta.length =
        (ChunkEngine.append_all cfg s xs).1.enc.num_samples := by
  intro xs
  induction xs with
  | nil => intro s h; exact h
  | cons x rest ih =>
      intro s h
      simp only [ChunkEngine.append_all]
      cases hap : s.append cfg x with
      | mk s1 o =>
          have h1 : s1.meta.length = s1.enc.num_samples := by
            have := append_sync cfg s x h
            rwa [hap] at this
          cases o with
          | some e => simpa [hap] using h1
          | none => simpa [hap] using ih s1 h1

theorem extend_ndarray_sync (cfg : Config) (s : ChunkEngine) (rows : List (List Nat))
    (shape : List Nat) (dtn : String) (h : s.meta.length = s.enc.num_samples) :
    (s.extend_ndarray cfg rows shape dtn).1.meta.length =
      (s.extend_ndarray cfg rows shape dtn).1.enc.num_samples := by
  simp only [ChunkEngine.extend_ndarray]
  cases hcomp : s.meta.sample_compression with
  | none =>
      simp only []
      cases hp : ChunkEngine.uncompressed_precheck cfg s.meta.hash_samples s rows with
      | mk s1 o =>
          have hpre := upre_preserves cfg s.meta.hash_samples rows s
          rw [hp] at hpre
          have h1 : s1.meta.length = s1.enc.num_samples := by
            rw [hpre.1, hpre.2.1]; exact h
          cases o with
          | some e => simpa using h1
          | none => simpa using append_buffers_sync cfg shape dtn rows s1 h1
  | some compression =>
      simp only []
      cases hp : ChunkEngine.compressed_precheck cfg s.meta.hash_samples compression s rows with
      | mk s1 o =>
          have hpre := cpre_preserves cfg s.meta.hash_samples compression rows s
          rw [hp] at hpre
          have h1 : s1.meta.length = s1.enc.num_samples := by
            rw [hpre.1, hpre.2.1]; exact h
          cases o with
          | some e => simpa using h1
          | none => simpa using append_all_sync cfg _ s1 h1

theorem extend_sync (cfg : Config) (s : ChunkEngine) (b : ExtendInput)
    (h : s.meta.length = s.enc.num_samples) :
    (s.extend cfg b).1.meta.length = (s.extend cfg b).1.enc.num_samples := by
  cases b with
  | ndarray rows shape dtn => exact extend_ndarray_sync cfg s rows shape dtn h
  | sequence elems =>
      simp only [ChunkEngine.extend]
      by_cases hu : is_uniform_sequence elems
      · simpa [hu] using extend_ndarray_sync cfg s (elems.map SeqElem.elem_bytes) _ _ h
      · simpa [hu] using append_all_sync cfg _ s h

theorem run_ops_sync (cfg : Config) :
    ∀ (ops : List EngineOp) (s : ChunkEngine),
      s.meta.length = s.enc.num_samples →
      (run_ops cfg s ops).meta.length = (run_ops cfg s ops).enc.num_samples := by
  intro ops
  induction ops with
  | nil => intro s h; exact h
  | cons op rest ih =>
      intro s h
      cases op with
      | app x => exact ih _ (append_sync cfg s x h)
      | ext b => exact ih _ (extend_sync cfg s b h)

/-! ### C2 -/

/-- Claim C2: from a fresh tensor, after any sequence of append / extend operations
the tensor meta's `length` equals the chunk-id encoder's `num_samples`, so
`validate_num_samples_is_synchronized` (which raises `CorruptedMeta` exactly when the
two counts differ) never raises on such a state; moreover every single-sample
`_append_bytes` bumps both counts by exactly one. -/
theorem c2_length_synchronized (cfg : Config) (compression : Option String)
    (hash_samples : Bool) (ops : List EngineOp) :
    (run_ops cfg (ChunkEngine.fresh compression hash_samples) ops).meta.length =
      (run_ops cfg (ChunkEngine.fresh compression hash_samples) ops).enc.num_samples ∧
    (run_ops cfg (ChunkEngine.fresh compression hash_samples) ops).validate_num_samples_is_synchronized
      = none ∧
    (∀ t : ChunkEngine,
      t.validate_num_samples_is_synchronized = none ↔ t.meta.length = t.enc.num_samples) ∧
    (∀ (t : ChunkEngine) (buffer shape : List Nat) (dtn : String),
      (t.append_bytes cfg buffer shape dtn).meta.length = t.meta.length + 1 ∧
      (t.append_bytes cfg buffer shape dtn).enc.num_samples = t.enc.num_samples + 1) := by
  have hrun := run_ops_sync cfg ops (ChunkEngine.fresh compression hash_samples) rfl
  refine ⟨hrun, ?_, ?_, ?_⟩
  · simp [ChunkEngine.validate_num_samples_is_synchronized, hrun]
  · intro t
    unfold ChunkEngine.validate_num_samples_is_synchronized
    by_cases h : t.meta.length = t.enc.num_samples <;> simp [h]
  · intro t buffer shape dtn
    exact ⟨append_bytes_meta_length cfg t buffer shape dtn,
      append_bytes_num_samples cfg t buffer shape dtn⟩

/-! ### Batch pre-check rejection (C3, C4) -/

theorem upre_some_of_oversized (cfg : Config) (hs : Bool) :
    ∀ (rows : List (List Nat)) (s : ChunkEngine),
      (∃ r ∈ rows, cfg.min_chunk_size < r.length) →
      (ChunkEngine.uncompressed_precheck cfg hs s rows).2.isSome = true := by
  intro rows
  induction rows with
  | nil => intro s h; rcases h with ⟨r, hr, _⟩; cases hr
  | cons row rest ih =>
      intro s h
      simp only [ChunkEngine.uncompressed_precheck]
      set s1 : ChunkEngine :=
        if hs = true then { s with hashlist := s.hashlist ++ [cfg.mmh3 row] } else s
        with hdef
      cases hch : check_sample_size cfg s1.meta.sample_compression row.length with
      | some e => simp [hch]
      | none =>
          simp only [hch]
          have hrow : ¬ cfg.min_chunk_size < row.length := by
            intro hlt
            simp [check_sample_size, hlt] at hch
          rcases h with ⟨r, hr, hrsize⟩
          rcases List.mem_cons.mp hr with rfl | hmem
          · exact absurd hrsize hrow
          · exact ih s1 ⟨r, hmem, hrsize⟩

theorem cpre_some_of_oversized (cfg : Config) (hs : Bool) (compression : String) :
    ∀ (rows : List (List Nat)) (s : ChunkEngine),
      (∃ r ∈ rows, cfg.min_chunk_size < (cfg.codec compression r).length) →
      (ChunkEngine.compressed_precheck cfg hs compression s rows).2.isSome = true := by
  intro rows
  induction rows with
  | nil => intro s h; rcases h with ⟨r, hr, _⟩; cases hr
  | cons row rest ih =>
      intro s h
      simp only [ChunkEngine.compressed_precheck]
      by_cases hh : hs = true
      · rw [if_pos hh]
        rfl
      · rw [if_neg hh]
        cases hch : check_sample_size cfg s.meta.sample_compression
            (cfg.codec compression row).length with
        | some e => simp [hch]
        | none =>
            simp only [hch]
            have hrow : ¬ cfg.min_chunk_size < (cfg.codec compression row).length := by
              intro hlt
              simp [check_sample_size, hlt] at hch
            rcases h with ⟨r, hr, hrsize⟩
            rcases List.mem_cons.mp hr with rfl | hmem
            · exact absurd hrsize hrow
            · exact ih s ⟨r, hmem, hrsize⟩

/-- A dense numpy batch containing any element whose encoded size exceeds
`min_chunk_size` is rejected by the first loop of `extend`, before any chunk,
tensor-meta or chunk-id-encoder mutation. -/
theorem extend_ndarray_reject (cfg : Config) (s : ChunkEngine) (rows : List (List Nat))
    (row_shape : List Nat) (dtn : String)
    (h : ∃ r ∈ rows, cfg.min_chunk_size < encoded_size cfg s.meta.sample_compression r) :
    (s.extend_ndarray cfg rows row_shape dtn).2.isSome = true ∧
    (s.extend_ndarray cfg rows row_shape dtn).1.chunks = s.chunks ∧
    (s.extend_ndarray cfg rows row_shape dtn).1.meta = s.meta ∧
    (s.extend_ndarray cfg rows row_shape dtn).1.enc = s.enc := by
  simp only [ChunkEngine.extend_ndarray]
  cases hcomp : s.meta.sample_compression with
  | none =>
      dsimp only
      have h' : ∃ r ∈ rows, cfg.min_chunk_size < r.length := by
        simpa [encoded_size, hcomp] using h
      have hpre := upre_preserves cfg s.meta.hash_samples rows s
      have hsome := upre_some_of_oversized cfg s.meta.hash_samples rows s h'
      cases hp : ChunkEngine.uncompressed_precheck cfg s.meta.hash_samples s rows with
      | mk s1 o =>
          rw [hp] at hpre hsome
          cases o with
          | some e =>
              exact ⟨by rfl, by simpa using hpre.2.2,
                by simpa using hpre.1, by simpa using hpre.2.1⟩
          | none => simp at hsome
  | some compression =>
      dsimp only
      have h' : ∃ r ∈ rows, cfg.min_chunk_size < (cfg.codec compression r).length := by
        simpa [encoded_size, hcomp] using h
      have hpre := cpre_preserves cfg s.meta.hash_samples compression rows s
      have hsome := cpre_some_of_oversized cfg s.meta.hash_samples compression rows s h'
      cases hp : ChunkEngine.compressed_precheck cfg s.meta.hash_samples compression s rows with
      | mk s1 o =>
          rw [hp] at hpre hsome
          cases o with
          | some e =>
              exact ⟨by rfl, by simpa using hpre.2.2,
                by simpa using hpre.1, by simpa using hpre.2.1⟩
          | none => simp at hsome

theorem upre_fail_exact (cfg : Config) :
    ∀ (pre : List (List Nat)) (s : ChunkEngine) (bad : List Nat) (rest : List (List Nat)),
      s.meta.sample_compression = none →
      (∀ r ∈ pre, r.length ≤ cfg.min_chunk_size) →
      cfg.min_chunk_size < bad.length →
      ChunkEngine.uncompressed_precheck cfg true s (pre ++ bad :: rest) =
        ({ s with hashlist := s.hashlist ++ (pre ++ [bad]).map cfg.mmh3 },
          some (.sampleTooLarge bad.length true)) := by
  intro pre
  induction pre with
  | nil =>
      intro s bad rest hcomp hpre hbad
      simp only [List.nil_append, ChunkEngine.uncompressed_precheck]
      simp [check_sample_size, hbad, hcomp]
  | cons r pre ih =>
      intro s bad rest hcomp hpre hbad
      have hr : r.length ≤ cfg.min_chunk_size := hpre r (List.mem_cons_self r pre)
      have hpre' : ∀ q ∈ pre, q.length ≤ cfg.min_chunk_size := fun q hq =>
        hpre q (List.mem_cons_of_mem r hq)
      have hih := ih { s with hashlist := s.hashlist ++ [cfg.mmh3 r] } bad rest hcomp
        hpre' hbad
      simp only [List.cons_append, ChunkEngine.uncompressed_precheck]
      simp [check_sample_size, Nat.not_lt.mpr hr, hcomp, hih, List.append_assoc]

theorem upre_fail_nohash (cfg : Config) :
    ∀ (pre : List (List Nat)) (s : ChunkEngine) (bad : List Nat) (rest : List (List Nat)),
      s.meta.sample_compression = none →
      (∀ r ∈ pre, r.length ≤ cfg.min_chunk_size) →
      cfg.min_chunk_size < bad.length →
      ChunkEngine.uncompressed_precheck cfg false s (pre ++ bad :: rest) =
        (s, some (.sampleTooLarge bad.length true)) := by
  intro pre
  induction pre with
  | nil =>
      intro s bad rest hcomp hpre hbad
      simp only [List.nil_append, ChunkEngine.uncompressed_precheck]
      simp [check_sample_size, hbad, hcomp]
  | cons r pre ih =>
      intro s bad rest hcomp hpre hbad
      have hr : r.length ≤ cfg.min_chunk_size := hpre r (List.mem_cons_self r pre)
      have hpre' : ∀ q ∈ pre, q.length ≤ cfg.min_chunk_size := fun q hq =>
        hpre q (List.mem_cons_of_mem r hq)
      have hih := ih s bad rest hcomp hpre' hbad
      simp only [List.cons_append, ChunkEngine.uncompressed_precheck]
      simp [check_sample_size, Nat.not_lt.mpr hr, hcomp, hih]

theorem cpre_fail_nohash (cfg : Config) (compression : String) :
    ∀ (pre : List (List Nat)) (s : ChunkEngine) (bad : List Nat) (rest : List (List Nat)),
      s.meta.sample_compression = some compression →
      (∀ r ∈ pre, (cfg.codec compression r).length ≤ cfg.min_chunk_size) →
      cfg.min_chunk_size < (cfg.codec compression bad).length →
      ChunkEngine.compressed_precheck cfg false compression s (pre ++ bad :: rest) =
        (s, some (.sampleTooLarge (cfg.codec compression bad).length false)) := by
  intro pre
  induction pre with
  | nil =>
      intro s bad rest hcomp hpre hbad
      simp only [List.nil_append, ChunkEngine.compressed_precheck]
      rw [if_neg Bool.false_ne_true]
      simp [check_sample_size, hbad, hcomp]
  | cons r pre ih =>
      intro s bad rest hcomp hpre hbad
      have hr : (cfg.codec compression r).length ≤ cfg.min_chunk_size :=
        hpre r (List.mem_cons_self r pre)
      have hpre' : ∀ q ∈ pre, (cfg.codec compression q).length ≤ cfg.min_chunk_size :=
        fun q hq => hpre q (List.mem_cons_of_mem r hq)
      have hih := ih s bad rest hcomp hpre' hbad
      simp only [List.cons_append, ChunkEngine.compressed_precheck]
      rw [if_neg Bool.false_ne_true]
      simp [check_sample_size, Nat.not_lt.mpr hr, hih]

theorem cpre_attr (cfg : Config) (compression : String) (s : ChunkEngine)
    (row : List Nat) (rest : List (List Nat)) :
    ChunkEngine.compressed_precheck cfg true compression s (row :: rest) =
      (s, some .attributeError) := by
  simp [ChunkEngine.compressed_precheck]

theorem upre_ok (cfg : Config) (hs : Bool) :
    ∀ (rows : List (List Nat)) (s : ChunkEngine),
      (∀ r ∈ rows, r.length ≤ cfg.min_chunk_size) →
      (ChunkEngine.uncompressed_precheck cfg hs s rows).2 = none := by
  intro rows
  induction rows with
  | nil => intro s _; rfl
  | cons row rest ih =>
      intro s hall
      have hr : row.length ≤ cfg.min_chunk_size := hall row (List.mem_cons_self row rest)
      simp only [ChunkEngine.uncompressed_precheck]
      set s1 : ChunkEngine :=
        if hs = true then { s with hashlist := s.hashlist ++ [cfg.mmh3 row] } else s
        with hdef
      have hch : check_sample_size cfg s1.meta.sample_compression row.length = none := by
        simp [check_sample_size, Nat.not_lt.mpr hr]
      simp only [hch]
      exact ih s1 fun q hq => hall q (List.mem_cons_of_mem row hq)

theorem cpre_ok_nohash (cfg : Config) (compression : String) :
    ∀ (rows : List (List Nat)) (s : ChunkEngine),
      (∀ r ∈ rows, (cfg.codec compression r).length ≤ cfg.min_chunk_size) →
      ChunkEngine.compressed_precheck cfg false compression s rows = (s, none) := by
  intro rows
  induction rows with
  | nil => intro s _; rfl
  | cons row rest ih =>
      intro s hall
      have hr : (cfg.codec compression row).length ≤ cfg.min_chunk_size :=
        hall row (List.mem_cons_self row rest)
      have hch : check_sample_size cfg s.meta.sample_compression
          (cfg.codec compression row).length = none := by
        simp [check_sample_size, Nat.not_lt.mpr hr]
      simp only [ChunkEngine.compressed_precheck]
      rw [if_neg Bool.false_ne_true]
      simp only [hch]
      exact ih s fun q hq => hall q (List.mem_cons_of_mem row hq)

theorem append_buffers_num_samples (cfg : Config) (shape : List Nat) (dtn : String) :
    ∀ (rows : List (List Nat)) (s : ChunkEngine),
      (ChunkEngine.append_buffers cfg shape dtn s rows).enc.num_samples =
        s.enc.num_samples + rows.length := by
  intro rows
  induction rows with
  | nil => intro s; rfl
  | cons b rest ih =>
      intro s
      simp only [ChunkEngine.append_buffers]
      rw [ih, append_bytes_num_samples]
      simp only [List.length_cons]
      omega

theorem append_bytes_sample_compression (cfg : Config) (s : ChunkEngine)
    (buffer shape : List Nat) (dtn : String) :
    (s.append_bytes cfg buffer shape dtn).meta.sample_compression =
      s.meta.sample_compression := by
  unfold ChunkEngine.append_bytes
  dsimp only
  split
  · rw [try_append_meta]
    exact update_sample_compression _ _ _ _
  · show (_ : ChunkEngine).meta.sample_compression = _
    rw [show ∀ t : ChunkEngine, (t.append_to_new_chunk cfg buffer shape).meta = t.meta
          from fun t => rfl]
    rw [try_append_meta]
    exact update_sample_compression _ _ _ _

theorem append_all_ok (cfg : Config) :
    ∀ (xs : List Sample) (s : ChunkEngine),
      (∀ x ∈ xs, (x.compressed_bytes cfg s.meta.sample_compression).length ≤
        cfg.min_chunk_size) →
      (ChunkEngine.append_all cfg s xs).2 = none ∧
      (ChunkEngine.append_all cfg s xs).1.enc.num_samples =
        s.enc.num_samples + xs.length := by
  intro xs
  induction xs with
  | nil => intro s _; exact ⟨rfl, rfl⟩
  | cons x rest ih =>
      intro s hall
      have hx : (x.compressed_bytes cfg s.meta.sample_compression).length ≤
          cfg.min_chunk_size := hall x (List.mem_cons_self x rest)
      have hch : check_sample_size cfg s.meta.sample_compression
          (x.compressed_bytes cfg s.meta.sample_compression).length = none := by
        simp [check_sample_size, Nat.not_lt.mpr hx]
      simp only [ChunkEngine.append_all, ChunkEngine.append, hch]
      set s1 : ChunkEngine :=
        if s.meta.hash_samples = true then
          { s with hashlist := s.hashlist ++ [cfg.mmh3 x.uncompressed_bytes] }
        else s
        with hdef
      have hmeta1 : s1.meta = s.meta := by rw [hdef]; split <;> rfl
      have henc1 : s1.enc = s.enc := by rw [hdef]; split <;> rfl
      set s2 : ChunkEngine := s1.append_bytes cfg
        (x.compressed_bytes cfg s.meta.sample_compression) x.shape x.dtype_name
        with hdef2
      have hcomp2 : s2.meta.sample_compression = s.meta.sample_compression := by
        rw [hdef2, append_bytes_sample_compression, hmeta1]
      have hnum2 : s2.enc.num_samples = s.enc.num_samples + 1 := by
        rw [hdef2, append_bytes_num_samples, henc1]
      have hih := ih s2 fun y hy => by
        rw [hcomp2]; exact hall y (List.mem_cons_of_mem x hy)
      refine ⟨hih.1, ?_⟩
      rw [hih.2, hnum2]
      simp only [List.length_cons]
      omega

/-! ### C3 -/

/-- Claim C3, counterexample: in `extend`'s non-uniform sequence fallback, an
oversized later element raises `SampleTooLarge` only after the earlier elements were
appended, so the failing extend call does change `num_samples` (here from 0 to 1) —
the claim's "leaving num_samples unchanged" fails for samples passed to `extend`
through that path. -/
theorem c3_counterexample_fallback_mutates :
    ((ChunkEngine.fresh none false).extend test_cfg
        (.sequence [.scalar .int "uint8" [7], .npArr [6] "uint8" [9, 9, 9, 9, 9, 9]])).2 =
      some (.sampleTooLarge 6 true) ∧
    ((ChunkEngine.fresh none false).extend test_cfg
        (.sequence [.scalar .int "uint8" [7], .npArr [6] "uint8" [9, 9, 9, 9, 9, 9]])).1.enc.num_samples
      = 1 := by
  decide

/-- Claim C3 (amended): a sample whose encoded size exceeds `min_chunk_size` fails
`append` with `SampleTooLarge` before any mutation at all (the returned state is the
input state, so `num_samples` is unchanged), with the compression hint exactly when
`sample_compression` is unset, and a sample of at most `min_chunk_size` bytes passes
the check.  For samples passed to `extend` via an uncompressed numpy batch, the first
oversized element raises `SampleTooLarge` with no chunk, tensor-meta or
chunk-id-encoder mutation (`num_samples` unchanged; only the hashlist may have grown
when hashing is enabled); via a compressed numpy batch the same holds — with the
state entirely untouched — when `hash_samples` is unset, while with `hash_samples`
set the batch instead raises `AttributeError` at its first element (numpy rows lack
`uncompressed_bytes`), before any size check and before any mutation.  Through
`extend`'s non-uniform sequence fallback the failing sample itself still mutates
nothing, but earlier elements of the same call remain appended. -/
theorem c3_size_check_before_mutation (cfg : Config) (s : ChunkEngine) (x : Sample) :
    (cfg.min_chunk_size < (x.compressed_bytes cfg s.meta.sample_compression).length →
      s.append cfg x =
        (s, some (.sampleTooLarge (x.compressed_bytes cfg s.meta.sample_compression).length
          s.meta.sample_compression.isNone))) ∧
    ((x.compressed_bytes cfg s.meta.sample_compression).length ≤ cfg.min_chunk_size →
      check_sample_size cfg s.meta.sample_compression
          (x.compressed_bytes cfg s.meta.sample_compression).length = none ∧
      (s.append cfg x).2 = none) ∧
    (s.meta.sample_compression = none →
      ∀ (pre rest : List (List Nat)) (bad row_shape : List Nat) (dtn : String),
      (∀ r ∈ pre, r.length ≤ cfg.min_chunk_size) → cfg.min_chunk_size < bad.length →
      (s.extend cfg (.ndarray (pre ++ bad :: rest) row_shape dtn)).2 =
        some (.sampleTooLarge bad.length true) ∧
      (s.extend cfg (.ndarray (pre ++ bad :: rest) row_shape dtn)).1.chunks = s.chunks ∧
      (s.extend cfg (.ndarray (pre ++ bad :: rest) row_shape dtn)).1.meta = s.meta ∧
      (s.extend cfg (.ndarray (pre ++ bad :: rest) row_shape dtn)).1.enc = s.enc) ∧
    (∀ compression, s.meta.sample_compression = some compression →
      s.meta.hash_samples = false →
      ∀ (pre rest : List (List Nat)) (bad row_shape : List Nat) (dtn : String),
      (∀ r ∈ pre, (cfg.codec compression r).length ≤ cfg.min_chunk_size) →
      cfg.min_chunk_size < (cfg.codec compression bad).length →
      s.extend cfg (.ndarray (pre ++ bad :: rest) row_shape dtn) =
        (s, some (.sampleTooLarge (cfg.codec compression bad).length false))) ∧
    (∀ compression, s.meta.sample_compression = some compression →
      s.meta.hash_samples = true →
      ∀ (row : List Nat) (rest : List (List Nat)) (row_shape : List Nat) (dtn : String),
      s.extend cfg (.ndarray (row :: rest) row_shape dtn) =
        (s, some .attributeError)) := by
  refine ⟨?_, ?_, ?_, ?_, ?_⟩
  · intro h
    simp [ChunkEngine.append, check_sample_size, h]
  · intro h
    have hch : check_sample_size cfg s.meta.sample_compression
        (x.compressed_bytes cfg s.meta.sample_compression).length = none := by
      simp [check_sample_size, Nat.not_lt.mpr h]
    exact ⟨hch, by simp [ChunkEngine.append, hch]⟩
  · intro hcomp pre rest bad row_shape dtn hpre hbad
    cases hh : s.meta.hash_samples with
    | true =>
        have hE : s.extend cfg (.ndarray (pre ++ bad :: rest) row_shape dtn) =
            ({ s with hashlist := s.hashlist ++ (pre ++ [bad]).map cfg.mmh3 },
              some (.sampleTooLarge bad.length true)) := by
          show s.extend_ndarray cfg (pre ++ bad :: rest) row_shape dtn = _
          simp only [ChunkEngine.extend_ndarray, hcomp, hh]
          rw [upre_fail_exact cfg pre s bad rest hcomp hpre hbad]
        rw [hE]
        exact ⟨rfl, rfl, rfl, rfl⟩
    | false =>
        have hE : s.extend cfg (.ndarray (pre ++ bad :: rest) row_shape dtn) =
            (s, some (.sampleTooLarge bad.length true)) := by
          show s.extend_ndarray cfg (pre ++ bad :: rest) row_shape dtn = _
          simp only [ChunkEngine.extend_ndarray, hcomp, hh]
          rw [upre_fail_nohash cfg pre s bad rest hcomp hpre hbad]
        rw [hE]
        exact ⟨rfl, rfl, rfl, rfl⟩
  · intro compression hcomp hh pre rest bad row_shape dtn hpre hbad
    show s.extend_ndarray cfg (pre ++ bad :: rest) row_shape dtn = _
    simp only [ChunkEngine.extend_ndarray, hcomp, hh]
    rw [cpre_fail_nohash cfg compression pre s bad rest hcomp hpre hbad]
  · intro compression hcomp hh row rest row_shape dtn
    show s.extend_ndarray cfg (row :: rest) row_shape dtn = _
    simp only [ChunkEngine.extend_ndarray, hcomp, hh]
    rw [cpre_attr cfg compression s row rest]

/-- Claim C3, witness: with `max_chunk_size = 10` (`min_chunk_size = 5`), appending a
6-byte uncompressed sample to a fresh tensor fails with the hinting `SampleTooLarge`
and returns the unchanged state. -/
theorem c3_witness_oversized_append :
    (ChunkEngine.fresh none false).append test_cfg ⟨[6], "uint8", [9, 9, 9, 9, 9, 9]⟩ =
      (ChunkEngine.fresh none false, some (.sampleTooLarge 6 true)) := by
  exact (c3_size_check_before_mutation test_cfg (ChunkEngine.fresh none false)
    ⟨[6], "uint8", [9, 9, 9, 9, 9, 9]⟩).1 (by decide)

/-! ### C4 -/

/-- Claim C4, counterexample: a non-uniform sequence batch (two numpy arrays of
different shapes) is not pre-checked as a whole: the first element is appended, then
the second fails its size check, leaving the batch partially applied
(`num_samples = 1`, not 0) — refuting "either the whole batch is rejected with zero
samples appended ... no batch is left partially applied because of a failed size
check". -/
theorem c4_counterexample_partial_batch :
    ((ChunkEngine.fresh none false).extend test_cfg
        (.sequence [.npArr [2] "uint8" [1, 2], .npArr [6] "uint8" [9, 9, 9, 9, 9, 9]])).2 =
      some (.sampleTooLarge 6 true) ∧
    ((ChunkEngine.fresh none false).extend test_cfg
        (.sequence [.npArr [2] "uint8" [1, 2], .npArr [6] "uint8" [9, 9, 9, 9, 9, 9]])).1.enc.num_samples
      = 1 := by
  decide

/-- Claim C4 (amended): for every numpy-array batch, either the whole batch is
rejected with zero samples appended or every element reaches the per-sample append
loop and is appended: an uncompressed batch, and a compressed batch without hashing,
check the encoded sizes of all elements before any element is appended and are
rejected whole on any oversized element (no chunk, tensor-meta or chunk-id-encoder
mutation); a batch all of whose encoded sizes are within `min_chunk_size` is appended
in full, `num_samples` growing by the batch length.  A compressed batch with
`hash_samples` set is rejected whole at its first element with `AttributeError`
(numpy rows lack `uncompressed_bytes`), before any size check and with the state
untouched.  A uniform sequence is stacked and dispatched to the dense-array path.  A
non-uniform sequence falls back to element-by-element appends with per-element
checks and can be left partially applied by a failed size check (see the
counterexample). -/
theorem c4_batch_precheck (cfg : Config) (s : ChunkEngine) (row_shape : List Nat)
    (dtn : String) :
    (∀ rows : List (List Nat),
      (∃ r ∈ rows, cfg.min_chunk_size < encoded_size cfg s.meta.sample_compression r) →
      (s.extend cfg (.ndarray rows row_shape dtn)).2.isSome = true ∧
      (s.extend cfg (.ndarray rows row_shape dtn)).1.chunks = s.chunks ∧
      (s.extend cfg (.ndarray rows row_shape dtn)).1.meta = s.meta ∧
      (s.extend cfg (.ndarray rows row_shape dtn)).1.enc = s.enc ∧
      (s.extend cfg (.ndarray rows row_shape dtn)).1.enc.num_samples =
        s.enc.num_samples) ∧
    (s.meta.sample_compression = none →
      ∀ rows : List (List Nat), (∀ r ∈ rows, r.length ≤ cfg.min_chunk_size) →
      (s.extend cfg (.ndarray rows row_shape dtn)).2 = none ∧
      (s.extend cfg (.ndarray rows row_shape dtn)).1.enc.num_samples =
        s.enc.num_samples + rows.length) ∧
    (∀ compression, s.meta.sample_compression = some compression →
      s.meta.hash_samples = false →
      ∀ rows : List (List Nat),
      (∀ r ∈ rows, (cfg.codec compression r).length ≤ cfg.min_chunk_size) →
      (s.extend cfg (.ndarray rows row_shape dtn)).2 = none ∧
      (s.extend cfg (.ndarray rows row_shape dtn)).1.enc.num_samples =
        s.enc.num_samples + rows.length) ∧
    (∀ compression, s.meta.sample_compression = some compression →
      s.meta.hash_samples = true →
      ∀ (row : List Nat) (rest : List (List Nat)),
      s.extend cfg (.ndarray (row :: rest) row_shape dtn) =
        (s, some .attributeError)) ∧
    (∀ elems : List SeqElem, is_uniform_sequence elems = true →
      s.extend cfg (.sequence elems) =
        s.extend_ndarray cfg (elems.map SeqElem.elem_bytes)
          ((elems.head?.map SeqElem.elem_shape).getD [])
          ((elems.head?.map SeqElem.elem_dtype).getD "")) := by
  refine ⟨?_, ?_, ?_, ?_, ?_⟩
  · intro rows h
    have hr := extend_ndarray_reject cfg s rows row_shape dtn h
    exact ⟨hr.1, hr.2.1, hr.2.2.1, hr.2.2.2, by rw [show
      (s.extend cfg (.ndarray rows row_shape dtn)).1.enc = s.enc from hr.2.2.2]⟩
  · intro hcomp rows hall
    cases hp : ChunkEngine.uncompressed_precheck cfg s.meta.hash_samples s rows with
    | mk s1 o =>
        have ho : o = none := by
          have := upre_ok cfg s.meta.hash_samples rows s hall
          rwa [hp] at this
        subst ho
        have hpre := upre_preserves cfg s.meta.hash_samples rows s
        rw [hp] at hpre
        have hE : s.extend cfg (.ndarray rows row_shape dtn) =
            (ChunkEngine.append_buffers cfg row_shape dtn s1 rows, none) := by
          show s.extend_ndarray cfg rows row_shape dtn = _
          simp only [ChunkEngine.extend_ndarray, hcomp]
          rw [hp]
        rw [hE]
        refine ⟨rfl, ?_⟩
        rw [append_buffers_num_samples, show s1.enc = s.enc from by simpa using hpre.2.1]
  · intro compression hcomp hh rows hall
    have hE : s.extend cfg (.ndarray rows row_shape dtn) =
        ChunkEngine.append_all cfg s (rows.map fun r => ⟨row_shape, dtn, r⟩) := by
      show s.extend_ndarray cfg rows row_shape dtn = _
      simp only [ChunkEngine.extend_ndarray, hcomp, hh]
      rw [cpre_ok_nohash cfg compression rows s hall]
    rw [hE]
    have hok := append_all_ok cfg (rows.map fun r => ⟨row_shape, dtn, r⟩) s ?_
    · exact ⟨hok.1, by rw [hok.2]; simp [List.length_map]⟩
    · intro y hy
      rcases List.mem_map.mp hy with ⟨r, hr, rfl⟩
      simpa [Sample.compressed_bytes, hcomp] using hall r hr
  · intro compression hcomp hh row rest
    show s.extend_ndarray cfg (row :: rest) row_shape dtn = _
    simp only [ChunkEngine.extend_ndarray, hcomp, hh]
    rw [cpre_attr cfg compression s row rest]
  · intro elems hu
    simp [ChunkEngine.extend, hu]

/-- Claim C4, witness: a fresh tensor rejects the one-row dense batch whose row is
6 > 5 = `min_chunk_size` bytes. -/
theorem c4_witness_dense_reject :
    ((ChunkEngine.fresh none false).extend test_cfg
        (.ndarray [[1, 2, 3, 4, 5, 6]] [6] "uint8")).2.isSome = true ∧
    ((ChunkEngine.fresh none false).extend test_cfg
        (.ndarray [[1, 2, 3, 4, 5, 6]] [6] "uint8")).1.enc.num_samples = 0 := by
  have := (c4_batch_precheck test_cfg (ChunkEngine.fresh none false) [6] "uint8").1
    [[1, 2, 3, 4, 5, 6]] ⟨[1, 2, 3, 4, 5, 6], by decide, by decide⟩
  exact ⟨this.1, this.2.2.2.2⟩

/-! ### Read path (C5) -/

theorem numpy_go_aslist (s : ChunkEngine) :
    ∀ (idxs : List Nat) (last_shape : Option (List Nat)),
      s.numpy_go true idxs last_shape = .ok (idxs.map s.sample_at) := by
  intro idxs
  induction idxs with
  | nil => intro ls; rfl
  | cons i rest ih =>
      intro ls
      simp [ChunkEngine.numpy_go, ih (some (s.sample_at i).1), Except.map]

theorem numpy_go_dense_ok (s : ChunkEngine) :
    ∀ (idxs : List Nat) (sh : List Nat),
      (∀ i ∈ idxs, (s.sample_at i).1 = sh) →
      s.numpy_go false idxs (some sh) = .ok (idxs.map s.sample_at) := by
  intro idxs
  induction idxs with
  | nil => intro sh _; rfl
  | cons i rest ih =>
      intro sh h
      have hi : (s.sample_at i).1 = sh := h i (List.mem_cons_self i rest)
      have hrest : ∀ j ∈ rest, (s.sample_at j).1 = sh := fun j hj =>
        h j (List.mem_cons_of_mem i hj)
      simp [ChunkEngine.numpy_go, hi, ih sh hrest, Except.map]

theorem numpy_go_dense_err (s : ChunkEngine) :
    ∀ (idxs : List Nat) (sh : List Nat),
      (∃ i ∈ idxs, (s.sample_at i).1 ≠ sh) →
      s.numpy_go false idxs (some sh) = .error .dynamicTensorNumpy := by
  intro idxs
  induction idxs with
  | nil => intro sh h; rcases h with ⟨i, hi, _⟩; cases hi
  | cons i rest ih =>
      intro sh h
      by_cases hi : (s.sample_at i).1 = sh
      · have hrest : ∃ j ∈ rest, (s.sample_at j).1 ≠ sh := by
          rcases h with ⟨j, hj, hne⟩
          rcases List.mem_cons.mp hj with rfl | hmem
          · exact absurd hi hne
          · exact ⟨j, hmem, hne⟩
        simp [ChunkEngine.numpy_go, hi, ih sh hrest, Except.map]
      · simp [ChunkEngine.numpy_go, hi]

theorem pairwise_eq_of_const :
    ∀ (ys : List (List Nat)) (c : List Nat),
      (∀ y ∈ ys, y = c) → ys.Pairwise (· = ·) := by
  intro ys
  induction ys with
  | nil => intro c _; exact List.Pairwise.nil
  | cons y ys ih =>
      intro c h
      refine List.Pairwise.cons (fun z hz => ?_) (ih c fun z hz => h z (List.mem_cons_of_mem y hz))
      rw [h y (List.mem_cons_self y ys), h z (List.mem_cons_of_mem y hz)]

/-! ### C5 -/

/-- Claim C5: `numpy` with `aslist=False` raises `DynamicTensorNumpyError` exactly
when the selected samples do not all share one shape, and returns the (stacked)
samples otherwise; with `aslist=True` it returns the per-sample arrays with their
original shapes regardless of any shape mismatch. -/
theorem c5_numpy_shape_error (s : ChunkEngine) (index : List Nat) :
    s.numpy index true = .ok (index.map s.sample_at) ∧
    ((index.map fun i => (s.sample_at i).1).Pairwise (· = ·) →
      s.numpy index false = .ok (index.map s.sample_at)) ∧
    (¬ (index.map fun i => (s.sample_at i).1).Pairwise (· = ·) →
      s.numpy index false = .error .dynamicTensorNumpy) := by
  refine ⟨numpy_go_aslist s index none, ?_, ?_⟩
  · intro hp
    cases index with
    | nil => rfl
    | cons i rest =>
        have hp2 := List.pairwise_cons.mp (List.pairwise_map.mp hp)
        have hrest : ∀ j ∈ rest, (s.sample_at j).1 = (s.sample_at i).1 := fun j hj =>
          (hp2.1 j hj).symm
        show s.numpy_go false (i :: rest) none = _
        simp [ChunkEngine.numpy_go, numpy_go_dense_ok s rest (s.sample_at i).1 hrest,
          Except.map]
  · intro hp
    cases index with
    | nil => exact absurd List.Pairwise.nil hp
    | cons i rest =>
        have hrest : ∃ j ∈ rest, (s.sample_at j).1 ≠ (s.sample_at i).1 := by
          by_contra hall
          push_neg at hall
          refine hp ?_
          simp only [List.map_cons]
          refine List.Pairwise.cons (fun z hz => ?_)
            (pairwise_eq_of_const _ ((s.sample_at i).1) fun z hz => ?_)
          · rcases List.mem_map.mp hz with ⟨j, hj, rfl⟩
            exact (hall j hj).symm
          · rcases List.mem_map.mp hz with ⟨j, hj, rfl⟩
            exact hall j hj
        show s.numpy_go false (i :: rest) none = _
        simp [ChunkEngine.numpy_go, numpy_go_dense_err s rest (s.sample_at i).1 hrest,
          Except.map]

/-- Claim C5, witness: on a state with two stored samples of equal shape `[2]`,
the dense read of both succeeds and returns their shapes and payloads. -/
theorem c5_witness_dense_read :
    engine_demo.numpy [0, 1] false = .ok ([0, 1].map engine_demo.sample_at) := by
  exact (c5_numpy_shape_error engine_demo [0, 1]).2.1 (by decide)

/-! ### C6 -/

/-- Claim C6, counterexample: after one `float32` sample of shape `(10, 10)`, a batch
whose dtype (`float64`) and per-sample rank (1 instead of 2) both differ is rejected
with the dtype `TensorMetaMismatch`, not with the invalid-sample-shape error the
claim promises for every rank-changing batch — the dtype check runs first. -/
theorem c6_counterexample_dtype_checked_first :
    meta_demo.check_batch_is_compatible [1, 5] "float64" =
      some (.tensorMetaMismatch (some "float32") "float64") ∧
    meta_demo.check_batch_is_compatible [1, 5] "float64" ≠
      some (.tensorInvalidSampleShape 2 1) := by
  decide

/-- Claim C6 (amended): after the first sample exists, `check_batch_is_compatible`
raises `TensorMetaMismatch` for every batch whose dtype name differs from the frozen
dtype (this check runs first); for a batch whose dtype matches but whose per-sample
rank differs from the recorded rank it raises the invalid-sample-shape error; a batch
matching both passes without error. -/
theorem c6_dtype_and_rank_checks (m : TensorMeta) (batch_shape : List Nat)
    (dtn : String) (hlen : 0 < m.length) :
    (m.dtype ≠ some dtn →
      m.check_batch_is_compatible batch_shape dtn =
        some (.tensorMetaMismatch m.dtype dtn)) ∧
    (m.dtype = some dtn → m.min_shape.length ≠ (batch_shape.drop 1).length →
      m.check_batch_is_compatible batch_shape dtn =
        some (.tensorInvalidSampleShape m.min_shape.length (batch_shape.drop 1).length)) ∧
    (m.dtype = some dtn → m.min_shape.length = (batch_shape.drop 1).length →
      m.check_batch_is_compatible batch_shape dtn = none) := by
  refine ⟨?_, ?_, ?_⟩
  · intro h1
    simp [TensorMeta.check_batch_is_compatible, h1]
  · intro h1 h2
    rw [List.length_drop] at h2
    simp [TensorMeta.check_batch_is_compatible, h1, h2, hlen]
  · intro h1 h2
    simp [TensorMeta.check_batch_is_compatible, h1, h2, hlen]

/-- Claim C6, witness: a batch matching `meta_demo`'s dtype and rank passes. -/
theorem c6_witness_matching_batch :
    meta_demo.check_batch_is_compatible [1, 10, 10] "float32" = none := by
  exact (c6_dtype_and_rank_checks meta_demo [1, 10, 10] "float32" (by decide)).2.2
    rfl (by decide)

/-! ### Shape interval lemmas (C7) -/

theorem usi_spec :
    ∀ (shape mins maxs mins' maxs' : List Nat),
      update_shape_interval shape mins maxs = some (mins', maxs') →
      (∀ i, i < shape.length →
        mins'[i]? = some (min (shape.getD i 0) (mins.getD i 0)) ∧
        maxs'[i]? = some (max (shape.getD i 0) (maxs.getD i 0))) ∧
      (∀ i, shape.length ≤ i → mins'[i]? = mins[i]? ∧ maxs'[i]? = maxs[i]?) := by
  intro shape
  induction shape with
  | nil =>
      intro mins maxs mins' maxs' h
      simp only [update_shape_interval, Option.some.injEq, Prod.mk.injEq] at h
      obtain ⟨rfl, rfl⟩ := h
      exact ⟨fun i hi => absurd hi (by simp), fun i _ => ⟨rfl, rfl⟩⟩
  | cons dim dims ih =>
      intro mins maxs mins' maxs' h
      cases mins with
      | nil => simp [update_shape_interval] at h
      | cons mn mins0 =>
          cases maxs with
          | nil => simp [update_shape_interval] at h
          | cons mx maxs0 =>
              simp only [update_shape_interval] at h
              cases hrec : update_shape_interval dims mins0 maxs0 with
              | none => rw [hrec] at h; simp at h
              | some p =>
                  rw [hrec] at h
                  simp only [Option.map_some', Option.some.injEq] at h
                  injection h with h1 h2
                  subst h1
                  subst h2
                  have ihp := ih mins0 maxs0 p.1 p.2 (by rw [hrec])
                  constructor
                  · intro i hi
                    cases i with
                    | zero => simp [List.getD_cons_zero]
                    | succ n =>
                        have hn : n < dims.length := by
                          simpa [Nat.succ_lt_succ_iff] using hi
                        have := ihp.1 n hn
                        simpa [List.getElem?_cons_succ, List.getD_cons_succ] using this
                  · intro i hi
                    cases i with
                    | zero => exact absurd hi (by simp)
                    | succ n =>
                        have hn : dims.length ≤ n := by
                          simpa [Nat.succ_le_succ_iff] using hi
                        have := ihp.2 n hn
                        simpa [List.getElem?_cons_succ] using this

theorem usi_forall2 :
    ∀ (shape mins maxs mins' maxs' : List Nat),
      update_shape_interval shape mins maxs = some (mins', maxs') →
      List.Forall₂ (· ≤ ·) mins maxs → List.Forall₂ (· ≤ ·) mins' maxs' := by
  intro shape
  induction shape with
  | nil =>
      intro mins maxs mins' maxs' h hf
      simp only [update_shape_interval, Option.some.injEq, Prod.mk.injEq] at h
      obtain ⟨rfl, rfl⟩ := h
      exact hf
  | cons dim dims ih =>
      intro mins maxs mins' maxs' h hf
      cases mins with
      | nil => simp [update_shape_interval] at h
      | cons mn mins0 =>
          cases maxs with
          | nil => simp [update_shape_interval] at h
          | cons mx maxs0 =>
              cases hf with
              | cons hle hf0 =>
                  simp only [update_shape_interval] at h
                  cases hrec : update_shape_interval dims mins0 maxs0 with
                  | none => rw [hrec] at h; simp at h
                  | some p =>
                      rw [hrec] at h
                      simp only [Option.map_some', Option.some.injEq] at h
                      injection h with h1 h2
                      subst h1
                      subst h2
                      exact List.Forall₂.cons
                        (le_trans (min_le_right dim mn)
                          (le_trans hle (le_max_right dim mx)))
                        (ih mins0 maxs0 p.1 p.2 (by rw [hrec]) hf0)

/-! ### C7 -/

/-- Claim C7: on the first call (`length <= 0`) `update_with_sample` fixes the dtype
to the array's dtype and installs `min_shape` and `max_shape` both equal to the
array's shape; on every subsequent call it leaves the dtype (and length) untouched
and updates only the per-dimension interval (`min_shape[i]` to the minimum,
`max_shape[i]` to the maximum of the old bound and dimension `i`, dimensions beyond
the new shape untouched), so `min_shape[i] ≤ max_shape[i]` holds component-wise
throughout. -/
theorem c7_update_with_sample (m : TensorMeta) (array_shape : List Nat)
    (array_dtype : String) :
    (m.length = 0 →
      m.update_with_sample array_shape array_dtype =
        some { m with dtype := some array_dtype
                      min_shape := array_shape
                      max_shape := array_shape }) ∧
    (∀ m', 0 < m.length → m.update_with_sample array_shape array_dtype = some m' →
      m'.dtype = m.dtype ∧ m'.length = m.length ∧
      (∀ i, i < array_shape.length →
        m'.min_shape[i]? = some (min (array_shape.getD i 0) (m.min_shape.getD i 0)) ∧
        m'.max_shape[i]? = some (max (array_shape.getD i 0) (m.max_shape.getD i 0))) ∧
      (∀ i, array_shape.length ≤ i →
        m'.min_shape[i]? = m.min_shape[i]? ∧ m'.max_shape[i]? = m.max_shape[i]?)) ∧
    (∀ m', List.Forall₂ (· ≤ ·) m.min_shape m.max_shape →
      m.update_with_sample array_shape array_dtype = some m' →
      List.Forall₂ (· ≤ ·) m'.min_shape m'.max_shape) := by
  refine ⟨?_, ?_, ?_⟩
  · intro h
    simp [TensorMeta.update_with_sample, h]
  · intro m' hpos h
    have hne : ¬ m.length ≤ 0 := by omega
    simp only [TensorMeta.update_with_sample, if_neg hne] at h
    cases husi : update_shape_interval array_shape m.min_shape m.max_shape with
    | none => rw [husi] at h; simp at h
    | some p =>
        rw [husi] at h
        simp only [Option.map_some', Option.some.injEq] at h
        subst h
        have hspec := usi_spec array_shape m.min_shape m.max_shape p.1 p.2 (by rw [husi])
        exact ⟨rfl, rfl, hspec.1, hspec.2⟩
  · intro m' hf h
    by_cases hz : m.length ≤ 0
    · simp only [TensorMeta.update_with_sample, if_pos hz, Option.some.injEq] at h
      subst h
      exact List.forall₂_same.mpr fun x _ => le_refl x
    · simp only [TensorMeta.update_with_sample, if_neg hz] at h
      cases husi : update_shape_interval array_shape m.min_shape m.max_shape with
      | none => rw [husi] at h; simp at h
      | some p =>
          rw [husi] at h
          simp only [Option.map_some', Option.some.injEq] at h
          subst h
          exact usi_forall2 array_shape m.min_shape m.max_shape p.1 p.2 (by rw [husi]) hf

/-- Claim C7, witness: on a fresh meta (`length = 0`), the first
`update_with_sample` call installs the dtype and sets both shape bounds to the
sample's shape. -/
theorem c7_witness_first_sample :
    (TensorMeta.fresh none false).update_with_sample [5, 7] "int32" =
      some { TensorMeta.fresh none false with
              dtype := some "int32"
              min_shape := [5, 7]
              max_shape := [5, 7] } := by
  exact (c7_update_with_sample (TensorMeta.fresh none false) [5, 7] "int32").1 rfl

/-! ### C8 -/

theorem get_chunk_names_go_card (e : ChunkIdEncoder) (last target : Nat) :
    ∀ (fuel idx : Nat) (acc : Finset String), acc.card ≤ target →
      (get_chunk_names_go e last target fuel idx acc).card ≤ target := by
  intro fuel
  induction fuel with
  | zero => intro idx acc h; exact h
  | succ n ih =>
      intro idx acc h
      simp only [get_chunk_names_go]
      split
      · rename_i hcond
        refine ih (idx + 1) _ ?_
        calc (insert (name_from_id (e.chunk_id_at idx)) acc).card
            ≤ acc.card + 1 := Finset.card_insert_le _ _
          _ ≤ target := hcond.1
      · exact h

/-- Claim C8: the `while` loop of `get_chunk_names` exits the moment
`target_chunk_count` unique names have been collected (or `last_index` is reached) —
it never walks on to the boundary of a partially covered chunk, and the returned set
can never hold more than `target_chunk_count` names, contradicting the function's own
docstring (case b) and the claim.  Concretely, with chunk 1 holding sample 0 and
chunk 2 holding samples 1-2, `get_chunk_names(0, 3, 2)` stops after sample 1 with
exactly the two names even though chunk 2 is only partially covered. -/
theorem c8_get_chunk_names_stops_at_target :
    get_chunk_names enc_demo 0 3 2 = {name_from_id 1, name_from_id 2} ∧
    ∀ (e : ChunkIdEncoder) (start last target : Nat),
      (get_chunk_names e start last target).card ≤ target := by
  constructor
  · decide
  · intro e start last target
    exact get_chunk_names_go_card e last target (last - start) start ∅ (by simp)

/-! ### C9 -/

/-- Claim C9, counterexample: on a fresh tensor with `max_chunk_size = 10`, appending
a sample of exactly 10 encoded bytes does not succeed in its own chunk: it fails the
sample-size check (10 > `min_chunk_size` = 5) with `SampleTooLarge`, and no chunk is
created. -/
theorem c9_counterexample_max_size_append :
    (ChunkEngine.fresh none false).append test_cfg sample_max =
      (ChunkEngine.fresh none false, some (.sampleTooLarge 10 true)) ∧
    ((ChunkEngine.fresh none false).append test_cfg sample_max).1.chunks = [] := by
  decide

/-- Claim C9 (amended): for every tensor state, an append of a sample whose encoded
size exactly equals `max_chunk_size` is rejected by `_check_sample_size` with
`SampleTooLarge` (since `max_chunk_size > max_chunk_size // 2 = min_chunk_size`
whenever `max_chunk_size > 2`, as `__init__` requires) and leaves the state
untouched — no chunk is created. -/
theorem c9_max_size_append_rejected (cfg : Config) (s : ChunkEngine) (x : Sample)
    (hM : 2 < cfg.max_chunk_size)
    (hsize : (x.compressed_bytes cfg s.meta.sample_compression).length =
      cfg.max_chunk_size) :
    s.append cfg x =
      (s, some (.sampleTooLarge cfg.max_chunk_size s.meta.sample_compression.isNone)) := by
  have hlt : cfg.min_chunk_size < cfg.max_chunk_size := by
    unfold Config.min_chunk_size
    omega
  simp [ChunkEngine.append, check_sample_size, hsize, hlt]

/-- Claim C9, witness: the amended statement at a fresh tensor with
`max_chunk_size = 10` and a 10-byte sample. -/
theorem c9_witness_max_size :
    (ChunkEngine.fresh none false).append test_cfg sample_max =
      (ChunkEngine.fresh none false,
        some (.sampleTooLarge test_cfg.max_chunk_size
          (ChunkEngine.fresh none false).meta.sample_compression.isNone)) := by
  exact c9_max_size_append_rejected test_cfg (ChunkEngine.fresh none false) sample_max
    (by decide) (by decide)

/-! ### C10 -/

/-- Claim C10: in `extend` over an uncompressed numpy batch with hashing enabled,
each row's digest is appended to the hashlist before that row's size check runs: when
element `k` (here the row `bad`, preceded by the in-bounds rows `pre`) is the first to
exceed `min_chunk_size`, the call raises `SampleTooLarge` with no chunk, tensor-meta
or chunk-id-encoder mutation — `num_samples` unchanged — but the hashlist has grown
by the digests of elements `0` through `k` inclusive. -/
theorem c10_hash_before_size_check (cfg : Config) (s : ChunkEngine)
    (pre rest : List (List Nat)) (bad : List Nat) (row_shape : List Nat) (dtn : String)
    (hcomp : s.meta.sample_compression = none) (hhash : s.meta.hash_samples = true)
    (hpre : ∀ r ∈ pre, r.length ≤ cfg.min_chunk_size)
    (hbad : cfg.min_chunk_size < bad.length) :
    s.extend cfg (.ndarray (pre ++ bad :: rest) row_shape dtn) =
      ({ s with hashlist := s.hashlist ++ (pre ++ [bad]).map cfg.mmh3 },
        some (.sampleTooLarge bad.length true)) := by
  show s.extend_ndarray cfg (pre ++ bad :: rest) row_shape dtn = _
  simp only [ChunkEngine.extend_ndarray, hcomp, hhash]
  rw [upre_fail_exact cfg pre s bad rest hcomp hpre hbad]

/-- Claim C10, witness: a fresh hashing tensor fed the uncompressed batch
`[[1,2], [7,7,7,7,7,7]]` (second row oversized for `min_chunk_size = 5`) fails with
`SampleTooLarge` while its hashlist has grown by both digests. -/
theorem c10_witness_hash_growth :
    (ChunkEngine.fresh none true).extend test_cfg
        (.ndarray ([[1, 2]] ++ [7, 7, 7, 7, 7, 7] :: []) [2] "uint8") =
      ({ ChunkEngine.fresh none true with
          hashlist := (ChunkEngine.fresh none true).hashlist ++
            ([[1, 2]] ++ [[7, 7, 7, 7, 7, 7]]).map test_cfg.mmh3 },
        some (.sampleTooLarge ([7, 7, 7, 7, 7, 7] : List Nat).length true)) := by
  exact c10_hash_before_size_check test_cfg (ChunkEngine.fresh none true)
    [[1, 2]] [] [7, 7, 7, 7, 7, 7] [2] "uint8" rfl rfl (by decide) (by decide)
